import Mathlib

/-!
# controller-demo: the Service to Ingress reconciler

A shallow embedding of `pkg/controller.go`.  The controller watches Services,
and for every Service carrying the annotation `ingress/http` keeps an Ingress of
the same namespace and name alive; the work is driven through a rate limited
work queue.

Layout: the Kubernetes objects the controller touches, the library functions it
calls (key splitting, `GetControllerOf`, `NewControllerRef`, the work queue),
the controller's own functions, then the theorems.
-/

namespace ControllerDemo

/-! ## Constants (`controller.go`, lines 22-25) -/

def workNum : Nat := 5

def maxRetry : Nat := 10

/-! ## Kubernetes objects -/

/-- The `metav1.OwnerReference` fields.  The two `*bool` fields are `Option Bool`:
`none` is the nil pointer. -/
structure OwnerReference where
  APIVersion : String
  Kind : String
  Name : String
  UID : String
  Controller : Option Bool
  BlockOwnerDeletion : Option Bool
deriving DecidableEq, Repr

/-- The part of `corev1.Service` the controller reads: its object metadata. -/
structure Service where
  Name : String
  Namespace : String
  UID : String
  Annotations : List (String × String)
deriving DecidableEq, Repr

/-- The `networkingv1.PathType` string constants. -/
inductive PathType where
  | Exact
  | Prefix
  | ImplementationSpecific
deriving DecidableEq, Repr

/-- The `networkingv1.ServiceBackendPort` fields. -/
structure ServiceBackendPort where
  Name : String
  Number : Int
deriving DecidableEq, Repr

/-- The `networkingv1.IngressServiceBackend` fields. -/
structure IngressServiceBackend where
  Name : String
  Port : ServiceBackendPort
deriving DecidableEq, Repr

/-- The `networkingv1.IngressBackend` with its `Service` pointer (the `Resource`
pointer is never set by the controller and is left out). -/
structure IngressBackend where
  Service : Option IngressServiceBackend
deriving DecidableEq, Repr

/-- The `networkingv1.HTTPIngressPath` fields. -/
structure HTTPIngressPath where
  Path : String
  PathType : Option PathType
  Backend : IngressBackend
deriving DecidableEq, Repr

/-- The `networkingv1.HTTPIngressRuleValue` fields. -/
structure HTTPIngressRuleValue where
  Paths : List HTTPIngressPath
deriving DecidableEq, Repr

/-- The `networkingv1.IngressRule`: a host and the embedded `IngressRuleValue`,
whose only field is the `HTTP` pointer. -/
structure IngressRule where
  Host : String
  HTTP : Option HTTPIngressRuleValue
deriving DecidableEq, Repr

/-- The `networkingv1.IngressSpec` fields the controller sets; `DefaultBackend`
and `TLS` keep their zero values and are left out. -/
structure IngressSpec where
  IngressClassName : Option String
  Rules : List IngressRule
deriving DecidableEq, Repr

/-- The `networkingv1.Ingress`: the object metadata the controller uses and the spec. -/
structure Ingress where
  Name : String
  Namespace : String
  OwnerReferences : List OwnerReference
  Spec : IngressSpec
deriving DecidableEq, Repr

/-! ## Errors -/

/-- The error values that flow through the controller.  `notFound` is an API status
error whose reason is NotFound; `unexpectedKeyFormat` is what
`cache.SplitMetaNamespaceKey` returns; `other` is any other error. -/
inductive Err where
  | notFound
  | unexpectedKeyFormat (key : String)
  | other (msg : String)
deriving DecidableEq, Repr

/-- The `errors.IsNotFound` test: true exactly on a non-nil NotFound error. -/
def IsNotFound : Option Err → Bool
  | some Err.notFound => true
  | _ => false

/-! ## Library functions used by the controller -/

/-- The `metav1.NewControllerRef` constructor, applied to a Service and the group/version/kind
`v1`, `Service`: both boolean pointers point to `true`. -/
def NewControllerRef (owner : Service) (apiVersion kind : String) : OwnerReference :=
  { APIVersion := apiVersion
    Kind := kind
    Name := owner.Name
    UID := owner.UID
    BlockOwnerDeletion := some true
    Controller := some true }

/-- The `metav1.GetControllerOf` lookup: the first owner reference whose `Controller`
pointer is non-nil and points to `true`; nil when there is none. -/
def GetControllerOf : List OwnerReference → Option OwnerReference
  | [] => none
  | ref :: refs => if ref.Controller = some true then some ref else GetControllerOf refs

/-- Splitting a list of characters at every `/`, as `strings.Split(key, "/")` does;
`acc` holds the current part, reversed. -/
def splitSlash : List Char → List Char → List String
  | [], acc => [String.mk acc.reverse]
  | c :: cs, acc =>
    if c = '/' then String.mk acc.reverse :: splitSlash cs []
    else splitSlash cs (c :: acc)

/-- The `cache.SplitMetaNamespaceKey` function: one part is a name without namespace,
two parts are namespace and name, anything else is an error. -/
def SplitMetaNamespaceKey (key : String) : Except Err (String × String) :=
  match splitSlash key.data [] with
  | [name] => Except.ok ("", name)
  | [namespaceKey, name] => Except.ok (namespaceKey, name)
  | _ => Except.error (Err.unexpectedKeyFormat key)

/-! ## `constructIngress` (`controller.go`, lines 155-192) -/

/-- The Ingress built for a Service. -/
def constructIngress (service : Service) : Ingress :=
  { OwnerReferences := [NewControllerRef service "v1" "Service"]
    Name := service.Name
    Namespace := service.Namespace
    Spec :=
      { IngressClassName := some "nginx"
        Rules :=
          [ { Host := "example.com"
              HTTP := some
                { Paths :=
                    [ { Path := "/"
                        PathType := some PathType.Prefix
                        Backend :=
                          { Service := some
                              { Name := service.Name
                                Port := { Name := "", Number := 80 } } } } ] } } ] } }

/-! ## The work queue -/

/-- Modelled from the spec: the rate limited work queue of section 4.1 is the
`workqueue` library of client-go, which is not part of the repository's source.
`queue` is the FIFO of pending keys, `dirty` the keys that need processing,
`processing` the keys in flight, `waiting` the keys whose back-off delay is still
running, `failures` the per-key retry counter of the rate limiter. -/
structure Queue where
  queue : List String
  dirty : List String
  processing : List String
  waiting : List String
  failures : String → Nat
  shuttingDown : Bool

/-- Modelled from the spec: a new queue, with nothing pending and every retry
counter at zero. -/
def Queue.empty : Queue :=
  { queue := [], dirty := [], processing := [], waiting := []
    failures := fun _ => 0, shuttingDown := false }

/-- Modelled from the spec: `Add(key)` inserts a key unless it is already pending;
a key that is in flight is only marked dirty (section 4.1). -/
def Queue.Add (q : Queue) (item : String) : Queue :=
  if q.shuttingDown then q
  else if item ∈ q.dirty then q
  else if item ∈ q.processing then { q with dirty := item :: q.dirty }
  else { q with dirty := item :: q.dirty, queue := q.queue ++ [item] }

/-- What `Get()` can do: block on an empty queue, report shutdown, or hand out the
head of the queue together with the queue after it. -/
inductive GetResult where
  | blocked
  | shutdown
  | item (key : String) (rest : Queue)

/-- Modelled from the spec: `Get()` hands out the oldest pending key and marks it
in flight; on an empty queue it blocks, or reports shutdown (section 4.1). -/
def Queue.Get (q : Queue) : GetResult :=
  match q.queue with
  | [] => if q.shuttingDown then GetResult.shutdown else GetResult.blocked
  | item :: rest =>
    GetResult.item item
      { q with queue := rest
               processing := item :: q.processing.filter (fun k => k ≠ item)
               dirty := q.dirty.filter (fun k => k ≠ item) }

/-- Modelled from the spec: `Done(key)` releases the in-flight mark; a key re-added
while in flight becomes available again (section 4.1). -/
def Queue.Done (q : Queue) (item : String) : Queue :=
  if item ∈ q.dirty then
    { q with processing := q.processing.filter (fun k => k ≠ item)
             queue := q.queue ++ [item] }
  else { q with processing := q.processing.filter (fun k => k ≠ item) }

/-- Modelled from the spec: `NumRequeues(key)` returns the current retry counter,
the number of `AddRateLimited` calls since the last `Forget` (section 4.1). -/
def Queue.NumRequeues (q : Queue) (item : String) : Nat := q.failures item

/-- Modelled from the spec: `Forget(key)` resets the retry counter to zero
(section 4.1). -/
def Queue.Forget (q : Queue) (item : String) : Queue :=
  { q with failures := fun k => if k = item then 0 else q.failures k }

/-- Modelled from the spec: `AddRateLimited(key)` counts one more retry for the key
and re-enqueues it after a delay; until the delay has run the key is in `waiting`
(section 4.1). -/
def Queue.AddRateLimited (q : Queue) (item : String) : Queue :=
  let q1 := { q with failures := fun k => if k = item then q.failures k + 1 else q.failures k }
  if q1.shuttingDown then q1 else { q1 with waiting := q1.waiting ++ [item] }

/-- Modelled from the spec: the back-off delays run out, and every waiting key is
added to the queue in the order it was scheduled (section 4.1). -/
def Queue.elapse (q : Queue) : Queue :=
  q.waiting.foldl Queue.Add { q with waiting := [] }

/-! ## The caches and the API client -/

/-- What a lister `Get(name)` returns: the object, or an error (NotFound when the
cache has no such object). -/
inductive LookupResult (α : Type) where
  | found (obj : α)
  | failed (err : Err)

/-- The object pointer of a lookup; nil when the lookup failed. -/
def LookupResult.obj {α : Type} : LookupResult α → Option α
  | LookupResult.found a => some a
  | LookupResult.failed _ => none

/-- The error of a lookup; nil when the lookup succeeded. -/
def LookupResult.err {α : Type} : LookupResult α → Option Err
  | LookupResult.found _ => none
  | LookupResult.failed e => some e

/-- The collaborators of the controller over a world state `σ`: the two listers,
which only read, and the `Create` and `Delete` calls of the Ingress client, which
return the world after the call and the call's error. -/
structure Client (σ : Type) where
  getService : σ → String → String → LookupResult Service
  getIngress : σ → String → String → LookupResult Ingress
  create : σ → String → Ingress → σ × Option Err
  delete : σ → String → String → σ × Option Err

/-- A call `syncService` makes on a collaborator. -/
inductive Call where
  | getService (namespaceKey name : String)
  | getIngress (namespaceKey name : String)
  | create (namespaceKey : String) (ing : Ingress)
  | delete (namespaceKey name : String)
deriving DecidableEq, Repr

/-- Whether a call is a `Create`. -/
def Call.isCreate : Call → Bool
  | Call.create _ _ => true
  | _ => false

/-- Whether a call is a `Delete`. -/
def Call.isDelete : Call → Bool
  | Call.delete _ _ => true
  | _ => false

/-- Whether a call is a mutation, `Create` or `Delete`. -/
def Call.isMutation (c : Call) : Bool := c.isCreate || c.isDelete

/-- The outcome of one `syncService`: the world after it, the calls it made in
order, and the error it returned (`none` is nil). -/
structure SyncResult (σ : Type) where
  state : σ
  calls : List Call
  err : Option Err

/-! ## `syncService` (`controller.go`, lines 102-140) -/

/-- The reconciler. -/
def syncService {σ : Type} (c : Client σ) (key : String) (s : σ) : SyncResult σ :=
  match SplitMetaNamespaceKey key with
  | Except.error err => ⟨s, [], some err⟩
  | Except.ok (namespaceKey, name) =>
    match c.getService s namespaceKey name with
    | LookupResult.failed err =>
      if IsNotFound (some err) then ⟨s, [Call.getService namespaceKey name], none⟩
      else ⟨s, [Call.getService namespaceKey name], some err⟩
    | LookupResult.found service =>
      let ok := service.Annotations.any (fun kv => kv.1 = "ingress/http")
      let lookup := c.getIngress s namespaceKey name
      let ingress := lookup.obj
      let err := lookup.err
      let reads := [Call.getService namespaceKey name, Call.getIngress namespaceKey name]
      if err ≠ none ∧ ¬ IsNotFound err then ⟨s, reads, err⟩
      else if ok ∧ IsNotFound err then
        let ing := constructIngress service
        let created := c.create s namespaceKey ing
        match created.2 with
        | some err2 => ⟨created.1, reads ++ [Call.create namespaceKey ing], some err2⟩
        | none => ⟨created.1, reads ++ [Call.create namespaceKey ing], none⟩
      else if ¬ ok ∧ ingress ≠ none then
        let deleted := c.delete s namespaceKey name
        ⟨deleted.1, reads ++ [Call.delete namespaceKey name], none⟩
      else ⟨s, reads, none⟩

/-! ## The worker (`controller.go`, lines 80-100 and 142-153) -/

/-- What the worker does, in order: its calls on the queue, its runs of
`syncService` (with the calls made and the error returned), and the errors it
reports through `runtime.HandleError`. -/
inductive Event where
  | queueAdd (key : String)
  | queueGet (key : String)
  | queueDone (key : String)
  | queueNumRequeues (key : String)
  | queueAddRateLimited (key : String)
  | queueForget (key : String)
  | sync (key : String) (calls : List Call) (err : Option Err)
  | handleError (err : Err)
deriving DecidableEq, Repr

/-- The retry policy, `handlerError`. -/
def handlerError (q : Queue) (key : String) (err : Err) : Queue × List Event :=
  if q.NumRequeues key ≤ maxRetry then
    (q.AddRateLimited key, [Event.queueNumRequeues key, Event.queueAddRateLimited key])
  else
    (q.Forget key,
      [Event.queueNumRequeues key, Event.handleError err, Event.queueForget key])

/-- The outcome of one `processNextItem`: its return value, the queue and the world
after it, and what it did.  `more` is the boolean `processNextItem` returns. -/
structure StepResult (σ : Type) where
  more : Bool
  queue : Queue
  state : σ
  events : List Event

/-- One `processNextItem`; `none` when `Get` blocks on an empty queue. -/
def processNextItem {σ : Type} (c : Client σ) (q : Queue) (s : σ) : Option (StepResult σ) :=
  match q.Get with
  | GetResult.blocked => none
  | GetResult.shutdown => some ⟨false, q, s, []⟩
  | GetResult.item key q1 =>
    let r := syncService c key s
    let handled : Queue × List Event :=
      match r.err with
      | some err => handlerError q1 key err
      | none => (q1, [])
    some ⟨true, handled.1.Done key, r.state,
      [Event.queueGet key, Event.sync key r.calls r.err] ++ handled.2 ++ [Event.queueDone key]⟩

/-- The loop of `worker`, for at most `fuel` items: it runs `processNextItem` until
that returns false.  When the queue is empty the back-off delays of the waiting
keys run out first; when nothing is pending or waiting either, the worker is
blocked in `Get` for good, as no other event adds a key. -/
def worker {σ : Type} (c : Client σ) : Nat → Queue → σ → Queue × σ × List Event
  | 0, q, s => (q, s, [])
  | fuel + 1, q, s =>
    let q0 := if q.queue = [] then q.elapse else q
    match processNextItem c q0 s with
    | none => (q0, s, [])
    | some r =>
      if r.more then
        let rest := worker c fuel r.queue r.state
        (rest.1, rest.2.1, r.events ++ rest.2.2)
      else (r.queue, r.state, r.events)

/-! ## `deleteIngress` (`controller.go`, lines 59-70) -/

/-- The handler for a deleted Ingress. -/
def deleteIngress (q : Queue) (ingress : Ingress) : Queue × List Event :=
  match GetControllerOf ingress.OwnerReferences with
  | none => (q, [])
  | some ownerReference =>
    if ownerReference.Kind ≠ "Service" then (q, [])
    else
      (q.Add (ingress.Namespace ++ "/" ++ ingress.Name),
        [Event.queueAdd (ingress.Namespace ++ "/" ++ ingress.Name)])

/-! ## A cluster whose caches are up to date -/

/-- The cluster state: the Services and the Ingresses that exist.  An object is
identified by its namespace and name. -/
structure Cluster where
  services : List Service
  ingresses : List Ingress
deriving DecidableEq, Repr

/-- The collaborators over a cluster whose listers read the very state that `Create`
and `Delete` change, and whose mutation calls all succeed: a lookup finds the object
of that namespace and name, `Create` stores the Ingress in the namespace of the
call, `Delete` removes the Ingress of that namespace and name. -/
def clusterClient : Client Cluster where
  getService s namespaceKey name :=
    match s.services.find? (fun x => x.Namespace = namespaceKey ∧ x.Name = name) with
    | some x => LookupResult.found x
    | none => LookupResult.failed Err.notFound
  getIngress s namespaceKey name :=
    match s.ingresses.find? (fun x => x.Namespace = namespaceKey ∧ x.Name = name) with
    | some x => LookupResult.found x
    | none => LookupResult.failed Err.notFound
  create s namespaceKey ing :=
    ({ s with ingresses := s.ingresses ++ [{ ing with Namespace := namespaceKey }] }, none)
  delete s namespaceKey name :=
    ({ s with ingresses :=
        s.ingresses.filter (fun x => ¬ (x.Namespace = namespaceKey ∧ x.Name = name)) }, none)

/-! ## Vocabulary of the properties -/

/-- A Service has the annotation key `k`: some pair of its annotation map has that key. -/
def Annotated (service : Service) (k : String) : Prop :=
  ∃ v, (k, v) ∈ service.Annotations

/-- The decision table of the reconciler, read on the calls of one run: a `Create` of
the constructed Ingress and nothing else when the Ingress is wanted and does not
exist, a `Delete` of `namespaceKey/name` and nothing else when it is not wanted and
exists, no mutation in the two other rows. -/
def FollowsDecisionTable (wantsDerived derivedExists : Prop) (namespaceKey name : String)
    (service : Service) (calls : List Call) : Prop :=
  (wantsDerived ∧ ¬ derivedExists →
      calls.filter Call.isMutation = [Call.create namespaceKey (constructIngress service)]) ∧
  (¬ wantsDerived ∧ derivedExists →
      calls.filter Call.isMutation = [Call.delete namespaceKey name]) ∧
  (wantsDerived ∧ derivedExists → calls.filter Call.isMutation = []) ∧
  (¬ wantsDerived ∧ ¬ derivedExists → calls.filter Call.isMutation = [])

/-! ## Concrete objects and collaborators -/

/-- The Service `ns/svc1` carrying the annotation `ingress/http`. -/
def svc1Annotated : Service :=
  { Name := "svc1", Namespace := "ns", UID := "uid-1", Annotations := [("ingress/http", "true")] }

/-- The Service `ns/svc1` without annotations. -/
def svc1Plain : Service :=
  { Name := "svc1", Namespace := "ns", UID := "uid-1", Annotations := [] }

/-- Collaborators whose Service cache holds the annotated `ns/svc1` and whose Ingress
lookup fails with an error that is not NotFound. -/
def ingressCacheDownClient : Client Unit where
  getService _ _ _ := LookupResult.found svc1Annotated
  getIngress _ _ _ := LookupResult.failed (Err.other "ingress cache unavailable")
  create s _ _ := (s, none)
  delete s _ _ := (s, none)

/-- A cluster with the annotated Service `ns/svc1` and no Ingress. -/
def clusterWanted : Cluster :=
  { services := [svc1Annotated], ingresses := [] }

/-- An Ingress `ns/svc1` that nobody owns: it has no owner reference. -/
def foreignIngress : Ingress :=
  { Name := "svc1", Namespace := "ns", OwnerReferences := []
    Spec := { IngressClassName := some "traefik", Rules := [] } }

/-- A cluster with the plain Service `ns/svc1` and the unowned Ingress `ns/svc1`. -/
def clusterForeign : Cluster :=
  { services := [svc1Plain], ingresses := [foreignIngress] }

/-- A cluster without Services that still holds an Ingress `ns/svc1`. -/
def clusterOrphan : Cluster :=
  { services := [], ingresses := [constructIngress svc1Annotated] }

/-- Collaborators whose caches hold the plain Service `ns/svc1` and its Ingress, and
whose `Delete` call fails. -/
def deleteFailsClient : Client Unit where
  getService _ _ _ := LookupResult.found svc1Plain
  getIngress _ _ _ := LookupResult.found (constructIngress svc1Plain)
  create s _ _ := (s, none)
  delete s _ _ := (s, some (Err.other "connection refused"))

/-- Collaborators whose Service lookup always fails with an error other than NotFound,
so that every `syncService` of a well-formed key fails. -/
def alwaysFailingClient : Client Unit where
  getService _ _ _ := LookupResult.failed (Err.other "service cache unavailable")
  getIngress _ _ _ := LookupResult.failed Err.notFound
  create s _ _ := (s, none)
  delete s _ _ := (s, none)

/-- Collaborators over a world that is either down (`true`: the Service lookup fails with
an error other than NotFound) or up (`false`: the Service cache answers, and holds no
Service). -/
def flappingClient : Client Bool where
  getService down _ _ :=
    if down then LookupResult.failed (Err.other "service cache unavailable")
    else LookupResult.failed Err.notFound
  getIngress _ _ _ := LookupResult.failed Err.notFound
  create s _ _ := (s, none)
  delete s _ _ := (s, none)

/-- An Ingress `ns/web` whose controller owner is the Service `ns/svc1`: its own name
differs from its owner's. -/
def renamedIngress : Ingress :=
  { constructIngress svc1Annotated with Name := "web" }

/-- Whether an event is a run of `syncService` for `key`. -/
def Event.isSyncOf (key : String) : Event → Bool
  | Event.sync k _ _ => k = key
  | _ => false

/-- Whether an event is a run of `syncService` for `key` that returned an error. -/
def Event.isFailedSyncOf (key : String) : Event → Bool
  | Event.sync k _ (some _) => k = key
  | _ => false

/-- The queue in which `key` alone is pending and has been retried `n` times. -/
def Queue.retrying (key : String) (n : Nat) : Queue :=
  { queue := [key], dirty := [key], processing := [], waiting := []
    failures := fun k => if k = key then n else 0, shuttingDown := false }

/-- The queue in which `key` alone waits for its back-off, after `n` retries. -/
def Queue.backingOff (key : String) (n : Nat) : Queue :=
  { queue := [], dirty := [], processing := [], waiting := [key]
    failures := fun k => if k = key then n else 0, shuttingDown := false }

/-! ## Theorems -/

/-- The annotation test of `syncService` is presence of the key in the annotation map. -/
theorem annotated_iff_any (service : Service) (k : String) :
    service.Annotations.any (fun kv => kv.1 = k) = true ↔ Annotated service k := by
  unfold Annotated
  simp only [List.any_eq_true, decide_eq_true_eq]
  constructor
  · rintro ⟨⟨a, b⟩, hmem, rfl⟩
    exact ⟨b, hmem⟩
  · rintro ⟨v, hv⟩
    exact ⟨(k, v), hv, rfl⟩

/-- What `syncService` does once the key is split and the Service is found, by the
outcome of the Ingress lookup. -/
theorem syncService_of_found {σ : Type} (c : Client σ) (s : σ) (key namespaceKey name : String)
    (service : Service)
    (hkey : SplitMetaNamespaceKey key = Except.ok (namespaceKey, name))
    (hsvc : c.getService s namespaceKey name = LookupResult.found service) :
    syncService c key s =
      (let ok := service.Annotations.any (fun kv => kv.1 = "ingress/http")
       let reads := [Call.getService namespaceKey name, Call.getIngress namespaceKey name]
       match c.getIngress s namespaceKey name with
       | LookupResult.failed Err.notFound =>
         if ok then
           ⟨(c.create s namespaceKey (constructIngress service)).1,
            reads ++ [Call.create namespaceKey (constructIngress service)],
            (c.create s namespaceKey (constructIngress service)).2⟩
         else ⟨s, reads, none⟩
       | LookupResult.failed err => ⟨s, reads, some err⟩
       | LookupResult.found _ =>
         if ok then ⟨s, reads, none⟩
         else ⟨(c.delete s namespaceKey name).1, reads ++ [Call.delete namespaceKey name], none⟩) := by
  unfold syncService
  rw [hkey]
  simp only [hsvc]
  cases hing : c.getIngress s namespaceKey name with
  | found ing =>
    by_cases hok : service.Annotations.any (fun kv => kv.1 = "ingress/http") = true
    · simp [LookupResult.obj, LookupResult.err, IsNotFound, hok]
    · simp [LookupResult.obj, LookupResult.err, IsNotFound, hok]
  | failed err =>
    cases err with
    | notFound =>
      by_cases hok : service.Annotations.any (fun kv => kv.1 = "ingress/http") = true
      · simp only [LookupResult.obj, LookupResult.err, IsNotFound, hok]
        cases hcr : (c.create s namespaceKey (constructIngress service)).2 <;> simp [hcr]
      · simp [LookupResult.obj, LookupResult.err, IsNotFound, hok]
    | unexpectedKeyFormat k => simp [LookupResult.obj, LookupResult.err, IsNotFound]
    | other m => simp [LookupResult.obj, LookupResult.err, IsNotFound]

/-! ### C1: the decision table -/

/-- C1, as stated, fails: the key `ns/svc1` is well formed, its Service is found and
carries the annotation, the Ingress lookup does not succeed (it fails with an error
other than NotFound), and yet `syncService` does not follow the row "wanted, does not
exist": it issues no `Create`. -/
theorem decision_table_fails_on_lookup_error :
    SplitMetaNamespaceKey "ns/svc1" = Except.ok ("ns", "svc1") ∧
    ingressCacheDownClient.getService () "ns" "svc1" = LookupResult.found svc1Annotated ∧
    ¬ FollowsDecisionTable (Annotated svc1Annotated "ingress/http")
        (∃ ing, ingressCacheDownClient.getIngress () "ns" "svc1" = LookupResult.found ing)
        "ns" "svc1" svc1Annotated (syncService ingressCacheDownClient "ns/svc1" ()).calls := by
  refine ⟨rfl, rfl, ?_⟩
  intro h
  have hrow := h.1 ⟨⟨"true", by simp [svc1Annotated]⟩, by
    rintro ⟨ing, hing⟩
    simp [ingressCacheDownClient] at hing⟩
  have hcalls : (syncService ingressCacheDownClient "ns/svc1" ()).calls =
      [Call.getService "ns" "svc1", Call.getIngress "ns" "svc1"] := rfl
  rw [hcalls] at hrow
  simp [Call.isMutation, Call.isCreate, Call.isDelete] at hrow

/-- C1, amended: for a well-formed key whose Service is found, `syncService` follows the
decision table (one `Create` of the constructed Ingress when wanted and absent, one
`Delete` of `namespaceKey/name` when unwanted and present, no mutation otherwise)
provided the Ingress lookup succeeds or reports NotFound; when the Ingress lookup fails
with another error, no mutation is issued and that error is returned. -/
theorem syncService_decision_table {σ : Type} (c : Client σ) (s : σ)
    (key namespaceKey name : String) (service : Service)
    (hkey : SplitMetaNamespaceKey key = Except.ok (namespaceKey, name))
    (hsvc : c.getService s namespaceKey name = LookupResult.found service) :
    ((∀ e, c.getIngress s namespaceKey name = LookupResult.failed e → e = Err.notFound) →
      FollowsDecisionTable (Annotated service "ingress/http")
        (∃ ing, c.getIngress s namespaceKey name = LookupResult.found ing)
        namespaceKey name service (syncService c key s).calls) ∧
    (∀ e, c.getIngress s namespaceKey name = LookupResult.failed e → e ≠ Err.notFound →
      (syncService c key s).calls.filter Call.isMutation = [] ∧
      (syncService c key s).err = some e) := by
  rw [syncService_of_found c s key namespaceKey name service hkey hsvc]
  have hann := annotated_iff_any service "ingress/http"
  cases hing : c.getIngress s namespaceKey name with
  | found ing =>
    refine ⟨fun _ => ⟨?_, ?_, ?_, ?_⟩, fun e he => by cases he⟩
    · rintro ⟨_, hne⟩
      exact absurd ⟨ing, rfl⟩ hne
    · rintro ⟨hnot, _⟩
      have hok : ¬ service.Annotations.any (fun kv => kv.1 = "ingress/http") = true :=
        fun h => hnot (hann.1 h)
      simp [hok, Call.isMutation, Call.isCreate, Call.isDelete]
    · rintro ⟨hw, _⟩
      simp [hann.2 hw, Call.isMutation, Call.isCreate, Call.isDelete]
    · rintro ⟨_, hne⟩
      exact absurd ⟨ing, rfl⟩ hne
  | failed err =>
    constructor
    · intro hnf
      have herr : err = Err.notFound := hnf err rfl
      subst herr
      refine ⟨?_, ?_, ?_, ?_⟩
      · rintro ⟨hw, _⟩
        simp [hann.2 hw, Call.isMutation, Call.isCreate, Call.isDelete]
      · rintro ⟨_, ⟨ing, hx⟩⟩
        cases hx
      · rintro ⟨_, ⟨ing, hx⟩⟩
        cases hx
      · rintro ⟨hnot, _⟩
        have hok : ¬ service.Annotations.any (fun kv => kv.1 = "ingress/http") = true :=
          fun h => hnot (hann.1 h)
        simp [hok, Call.isMutation, Call.isCreate, Call.isDelete]
    · intro e he hne
      cases he
      cases err with
      | notFound => exact absurd rfl hne
      | unexpectedKeyFormat k => simp [Call.isMutation, Call.isCreate, Call.isDelete]
      | other m => simp [Call.isMutation, Call.isCreate, Call.isDelete]

/-- The amended C1 at the key `ns/svc1` of a cluster that holds the annotated Service and
no Ingress: the one mutation is the `Create` of the constructed Ingress. -/
theorem syncService_decision_table_witness :
    SplitMetaNamespaceKey "ns/svc1" = Except.ok ("ns", "svc1") ∧
    clusterClient.getService clusterWanted "ns" "svc1" = LookupResult.found svc1Annotated ∧
    (syncService clusterClient "ns/svc1" clusterWanted).calls.filter Call.isMutation =
      [Call.create "ns" (constructIngress svc1Annotated)] :=
  ⟨rfl, rfl,
    ((syncService_decision_table clusterClient clusterWanted "ns/svc1" "ns" "svc1"
        svc1Annotated rfl rfl).1
      (by
        intro e he
        have hnf : clusterClient.getIngress clusterWanted "ns" "svc1" =
            LookupResult.failed Err.notFound := rfl
        rw [hnf] at he
        cases he
        rfl)).1
      ⟨⟨"true", by simp [svc1Annotated]⟩, by
        rintro ⟨ing, hing⟩
        have hnf : clusterClient.getIngress clusterWanted "ns" "svc1" =
            LookupResult.failed Err.notFound := rfl
        rw [hnf] at hing
        cases hing⟩⟩

/-! ### C6: which failures `syncService` reports -/

/-- The three failures `syncService` does report, for a well-formed key: a Service lookup
error other than NotFound, an Ingress lookup error other than NotFound, and an error of
the `Create` call it issues. -/
theorem syncService_reports_lookup_and_create_errors {σ : Type} (c : Client σ) (s : σ)
    (key namespaceKey name : String)
    (hkey : SplitMetaNamespaceKey key = Except.ok (namespaceKey, name)) :
    (∀ e, c.getService s namespaceKey name = LookupResult.failed e → e ≠ Err.notFound →
      (syncService c key s).err = some e) ∧
    (∀ service e, c.getService s namespaceKey name = LookupResult.found service →
      c.getIngress s namespaceKey name = LookupResult.failed e → e ≠ Err.notFound →
      (syncService c key s).err = some e) ∧
    (∀ service e, c.getService s namespaceKey name = LookupResult.found service →
      Call.create namespaceKey (constructIngress service) ∈ (syncService c key s).calls →
      (c.create s namespaceKey (constructIngress service)).2 = some e →
      (syncService c key s).err = some e) := by
  refine ⟨?_, ?_, ?_⟩
  · intro e he hne
    unfold syncService
    rw [hkey]
    simp only [he]
    cases e with
    | notFound => exact absurd rfl hne
    | unexpectedKeyFormat k => simp [IsNotFound]
    | other m => simp [IsNotFound]
  · intro service e hsvc hing hne
    rw [syncService_of_found c s key namespaceKey name service hkey hsvc, hing]
    cases e with
    | notFound => exact absurd rfl hne
    | unexpectedKeyFormat k => rfl
    | other m => rfl
  · intro service e hsvc hmem hcreate
    rw [syncService_of_found c s key namespaceKey name service hkey hsvc] at hmem ⊢
    cases hing : c.getIngress s namespaceKey name with
    | found ing =>
      rw [hing] at hmem
      by_cases hok : service.Annotations.any (fun kv => kv.1 = "ingress/http") = true
      · simp [hok] at hmem
      · simp [hok] at hmem
    | failed err =>
      rw [hing] at hmem
      cases err with
      | notFound =>
        by_cases hok : service.Annotations.any (fun kv => kv.1 = "ingress/http") = true
        · simp [hok, hcreate]
        · simp [hok] at hmem
      | unexpectedKeyFormat k => simp at hmem
      | other m => simp at hmem

/-- C6 at its failing input: the key `ns/svc1` is well formed, the Service has no
annotation, its Ingress exists, `syncService` issues the `Delete`, the `Delete` call
returns an error, and `syncService` returns nil all the same. -/
theorem syncService_drops_delete_error :
    SplitMetaNamespaceKey "ns/svc1" = Except.ok ("ns", "svc1") ∧
    (syncService deleteFailsClient "ns/svc1" ()).calls =
      [Call.getService "ns" "svc1", Call.getIngress "ns" "svc1", Call.delete "ns" "svc1"] ∧
    (deleteFailsClient.delete () "ns" "svc1").2 = some (Err.other "connection refused") ∧
    (syncService deleteFailsClient "ns/svc1" ()).err = none :=
  ⟨rfl, rfl, rfl, rfl⟩

/-! ### C7: which Ingress `syncService` deletes -/

/-- C7, as stated, fails: the Service `ns/svc1` has no annotation, the cached Ingress
`ns/svc1` has no owner reference at all, and `syncService` issues the `Delete` of
`ns/svc1`, after which the cluster holds no Ingress. -/
theorem syncService_deletes_unowned_ingress :
    clusterClient.getService clusterForeign "ns" "svc1" = LookupResult.found svc1Plain ∧
    ¬ Annotated svc1Plain "ingress/http" ∧
    clusterClient.getIngress clusterForeign "ns" "svc1" = LookupResult.found foreignIngress ∧
    GetControllerOf foreignIngress.OwnerReferences = none ∧
    Call.delete "ns" "svc1" ∈ (syncService clusterClient "ns/svc1" clusterForeign).calls ∧
    (syncService clusterClient "ns/svc1" clusterForeign).state.ingresses = [] := by
  refine ⟨rfl, ?_, rfl, rfl, ?_, rfl⟩
  · rintro ⟨v, hv⟩
    simp [svc1Plain] at hv
  · have hcalls : (syncService clusterClient "ns/svc1" clusterForeign).calls =
        [Call.getService "ns" "svc1", Call.getIngress "ns" "svc1", Call.delete "ns" "svc1"] :=
      rfl
    rw [hcalls]
    simp

/-- C7, amended: for a well-formed key whose Service is found and lacks the annotation,
`syncService` issues the `Delete` of Ingress `namespaceKey/name` exactly when the Ingress
lookup finds an Ingress of that namespace and name; the owner references of the Ingress
found play no part. -/
theorem syncService_deletes_by_name {σ : Type} (c : Client σ) (s : σ)
    (key namespaceKey name : String) (service : Service)
    (hkey : SplitMetaNamespaceKey key = Except.ok (namespaceKey, name))
    (hsvc : c.getService s namespaceKey name = LookupResult.found service)
    (hplain : ¬ Annotated service "ingress/http") :
    Call.delete namespaceKey name ∈ (syncService c key s).calls ↔
      ∃ ing, c.getIngress s namespaceKey name = LookupResult.found ing := by
  have hok : ¬ service.Annotations.any (fun kv => kv.1 = "ingress/http") = true :=
    fun h => hplain ((annotated_iff_any service "ingress/http").1 h)
  rw [syncService_of_found c s key namespaceKey name service hkey hsvc]
  cases hing : c.getIngress s namespaceKey name with
  | found ing => simp [hok]
  | failed err =>
    cases err with
    | notFound => simp [hok]
    | unexpectedKeyFormat k => simp
    | other m => simp

/-- The amended C7 at the cluster whose Ingress `ns/svc1` has no owner: the `Delete` is
issued. -/
theorem syncService_deletes_by_name_witness :
    SplitMetaNamespaceKey "ns/svc1" = Except.ok ("ns", "svc1") ∧
    clusterClient.getService clusterForeign "ns" "svc1" = LookupResult.found svc1Plain ∧
    foreignIngress.OwnerReferences = [] ∧
    Call.delete "ns" "svc1" ∈ (syncService clusterClient "ns/svc1" clusterForeign).calls :=
  ⟨rfl, rfl, rfl,
    (syncService_deletes_by_name clusterClient clusterForeign "ns/svc1" "ns" "svc1" svc1Plain
      rfl rfl (by
        rintro ⟨v, hv⟩
        simp [svc1Plain] at hv)).2 ⟨foreignIngress, rfl⟩⟩

/-! ### C8: a Service that is gone -/

/-- C8: for a well-formed key whose Service lookup reports NotFound, `syncService` returns
nil, leaves the world as it is, and its only call is the Service lookup: no Ingress
lookup, no `Create`, no `Delete`, whatever the Ingress lister would answer. -/
theorem syncService_service_not_found {σ : Type} (c : Client σ) (s : σ)
    (key namespaceKey name : String)
    (hkey : SplitMetaNamespaceKey key = Except.ok (namespaceKey, name))
    (hsvc : c.getService s namespaceKey name = LookupResult.failed Err.notFound) :
    (syncService c key s).err = none ∧
    (syncService c key s).state = s ∧
    (syncService c key s).calls = [Call.getService namespaceKey name] ∧
    (syncService c key s).calls.filter Call.isMutation = [] := by
  unfold syncService
  rw [hkey]
  simp [hsvc, IsNotFound, Call.isMutation, Call.isCreate, Call.isDelete]

/-- C8 at a cluster without Services whose Ingress `ns/svc1` is still there: the Ingress
stays. -/
theorem syncService_service_not_found_witness :
    clusterClient.getIngress clusterOrphan "ns" "svc1" =
      LookupResult.found (constructIngress svc1Annotated) ∧
    (syncService clusterClient "ns/svc1" clusterOrphan).err = none ∧
    (syncService clusterClient "ns/svc1" clusterOrphan).state = clusterOrphan ∧
    (syncService clusterClient "ns/svc1" clusterOrphan).calls = [Call.getService "ns" "svc1"] ∧
    (syncService clusterClient "ns/svc1" clusterOrphan).calls.filter Call.isMutation = [] :=
  ⟨rfl, syncService_service_not_found clusterClient clusterOrphan "ns/svc1" "ns" "svc1" rfl rfl⟩

/-! ### C10: the constructed Ingress -/

/-- C10: the Ingress constructed for a Service `s` has the name and namespace of `s`,
exactly one owner reference, which is the controller reference to `s` (kind `Service`,
the name and UID of `s`, controller flag set), the ingress class `nginx`, and exactly one
rule with exactly one path `/` of type Prefix whose backend is the Service named `s.Name`
on port 80; equal Services give equal Ingresses. -/
theorem constructIngress_spec (s : Service) :
    (constructIngress s).Name = s.Name ∧
    (constructIngress s).Namespace = s.Namespace ∧
    (∃ ref, (constructIngress s).OwnerReferences = [ref] ∧
      GetControllerOf (constructIngress s).OwnerReferences = some ref ∧
      ref.Kind = "Service" ∧ ref.Name = s.Name ∧ ref.UID = s.UID ∧
      ref.Controller = some true) ∧
    (constructIngress s).Spec.IngressClassName = some "nginx" ∧
    (∃ rule path, (constructIngress s).Spec.Rules = [rule] ∧
      rule.HTTP = some { Paths := [path] } ∧
      path.Path = "/" ∧ path.PathType = some PathType.Prefix ∧
      (∃ backend, path.Backend.Service = some backend ∧
        backend.Name = s.Name ∧ backend.Port.Number = 80)) ∧
    (∀ t : Service, s = t → constructIngress s = constructIngress t) := by
  refine ⟨rfl, rfl, ⟨_, rfl, ?_, rfl, rfl, rfl, rfl⟩, rfl, ⟨_, _, rfl, rfl, rfl, rfl, _, rfl, rfl, rfl⟩, ?_⟩
  · simp [constructIngress, GetControllerOf, NewControllerRef]
  · intro t ht
    rw [ht]

/-! ### C9: idempotence -/

/-- A Service lookup in the cluster only reads the Services. -/
theorem clusterClient_getService_congr (s t : Cluster) (namespaceKey name : String)
    (h : t.services = s.services) :
    clusterClient.getService t namespaceKey name = clusterClient.getService s namespaceKey name := by
  simp [clusterClient, h]

/-- A found Service of the cluster has the namespace and name it was looked up by. -/
theorem clusterClient_getService_found (s : Cluster) (namespaceKey name : String)
    (service : Service)
    (h : clusterClient.getService s namespaceKey name = LookupResult.found service) :
    service.Namespace = namespaceKey ∧ service.Name = name := by
  simp only [clusterClient] at h
  cases hf : s.services.find? (fun x => x.Namespace = namespaceKey ∧ x.Name = name) with
  | none => rw [hf] at h; cases h
  | some x =>
    rw [hf] at h
    cases h
    have := List.find?_some hf
    simpa using this

/-- An Ingress lookup in the cluster is a search by namespace and name. -/
theorem clusterClient_getIngress_eq (s : Cluster) (namespaceKey name : String) :
    clusterClient.getIngress s namespaceKey name =
      match s.ingresses.find? (fun x => x.Namespace = namespaceKey ∧ x.Name = name) with
      | some x => LookupResult.found x
      | none => LookupResult.failed Err.notFound := rfl

/-- C9: in the cluster whose listers read the state that `Create` and `Delete` change and
whose mutation calls succeed, for every key and every cluster state, a second run of
`syncService` right after the first leaves the cluster state of the first run unchanged
and issues neither a `Create` nor a `Delete`. -/
theorem syncService_idempotent (key : String) (s : Cluster) :
    (syncService clusterClient key (syncService clusterClient key s).state).state =
      (syncService clusterClient key s).state ∧
    (syncService clusterClient key (syncService clusterClient key s).state).calls.filter
      Call.isMutation = [] := by
  cases hkey : SplitMetaNamespaceKey key with
  | error e => simp [syncService, hkey]
  | ok p =>
    obtain ⟨namespaceKey, name⟩ := p
    cases hsvc : clusterClient.getService s namespaceKey name with
    | failed err =>
      have hfirst : (syncService clusterClient key s).state = s := by
        unfold syncService
        rw [hkey]
        simp only [hsvc]
        split <;> rfl
      rw [hfirst]
      unfold syncService
      rw [hkey]
      simp only [hsvc]
      split <;> simp [Call.isMutation, Call.isCreate, Call.isDelete]
    | found service =>
      obtain ⟨hns, hname⟩ := clusterClient_getService_found s namespaceKey name service hsvc
      have hmut : ∀ t : Cluster, t.services = s.services →
          clusterClient.getService t namespaceKey name = LookupResult.found service :=
        fun t ht => (clusterClient_getService_congr s t namespaceKey name ht).trans hsvc
      by_cases hok : service.Annotations.any (fun kv => kv.1 = "ingress/http") = true
      · cases hfind : s.ingresses.find? (fun x => x.Namespace = namespaceKey ∧ x.Name = name) with
        | some ing =>
          have hing : clusterClient.getIngress s namespaceKey name = LookupResult.found ing := by
            rw [clusterClient_getIngress_eq, hfind]
          have hfirst : (syncService clusterClient key s).state = s := by
            rw [syncService_of_found clusterClient s key namespaceKey name service hkey hsvc]
            simp [hing, hok]
          rw [hfirst, syncService_of_found clusterClient s key namespaceKey name service hkey hsvc]
          simp [hing, hok, Call.isMutation, Call.isCreate, Call.isDelete]
        | none =>
          have hing : clusterClient.getIngress s namespaceKey name =
              LookupResult.failed Err.notFound := by
            rw [clusterClient_getIngress_eq, hfind]
          have hfirst : (syncService clusterClient key s).state =
              (clusterClient.create s namespaceKey (constructIngress service)).1 := by
            rw [syncService_of_found clusterClient s key namespaceKey name service hkey hsvc]
            simp [hing, hok]
          have hing2 : clusterClient.getIngress
              (clusterClient.create s namespaceKey (constructIngress service)).1 namespaceKey name =
              LookupResult.found { constructIngress service with Namespace := namespaceKey } := by
            rw [clusterClient_getIngress_eq]
            show (match (s.ingresses ++
                [{ constructIngress service with Namespace := namespaceKey }]).find?
                (fun (x : Ingress) => x.Namespace = namespaceKey ∧ x.Name = name) with
              | some x => LookupResult.found x
              | none => LookupResult.failed Err.notFound) = _
            rw [List.find?_append, hfind]
            simp [constructIngress, hname]
          rw [hfirst, syncService_of_found clusterClient
            (clusterClient.create s namespaceKey (constructIngress service)).1
            key namespaceKey name service hkey (hmut _ rfl)]
          simp [hing2, hok, Call.isMutation, Call.isCreate, Call.isDelete]
      · cases hfind : s.ingresses.find? (fun x => x.Namespace = namespaceKey ∧ x.Name = name) with
        | some ing =>
          have hing : clusterClient.getIngress s namespaceKey name = LookupResult.found ing := by
            rw [clusterClient_getIngress_eq, hfind]
          have hfirst : (syncService clusterClient key s).state =
              (clusterClient.delete s namespaceKey name).1 := by
            rw [syncService_of_found clusterClient s key namespaceKey name service hkey hsvc]
            simp [hing, hok]
          have hing2 : clusterClient.getIngress
              (clusterClient.delete s namespaceKey name).1 namespaceKey name =
              LookupResult.failed Err.notFound := by
            have hnone : (s.ingresses.filter
                (fun x => ¬ (x.Namespace = namespaceKey ∧ x.Name = name))).find?
                (fun x => x.Namespace = namespaceKey ∧ x.Name = name) = none := by
              rw [List.find?_eq_none]
              intro x hx
              have hkeep := (List.mem_filter.1 hx).2
              simp only [decide_eq_true_eq] at hkeep
              simpa using hkeep
            rw [clusterClient_getIngress_eq]
            show (match (s.ingresses.filter
                (fun x => ¬ (x.Namespace = namespaceKey ∧ x.Name = name))).find?
                (fun (x : Ingress) => x.Namespace = namespaceKey ∧ x.Name = name) with
              | some x => LookupResult.found x
              | none => LookupResult.failed Err.notFound) = _
            rw [hnone]
          rw [hfirst, syncService_of_found clusterClient
            (clusterClient.delete s namespaceKey name).1
            key namespaceKey name service hkey (hmut _ rfl)]
          simp [hing2, hok, Call.isMutation, Call.isCreate, Call.isDelete]
        | none =>
          have hing : clusterClient.getIngress s namespaceKey name =
              LookupResult.failed Err.notFound := by
            rw [clusterClient_getIngress_eq, hfind]
          have hfirst : (syncService clusterClient key s).state = s := by
            rw [syncService_of_found clusterClient s key namespaceKey name service hkey hsvc]
            simp [hing, hok]
          rw [hfirst, syncService_of_found clusterClient s key namespaceKey name service hkey hsvc]
          simp [hing, hok, Call.isMutation, Call.isCreate, Call.isDelete]

/-! ### The work queue: what touches the retry counter -/

/-- The retry counter is untouched by `Get`. -/
theorem Queue.failures_of_get (q q1 : Queue) (key : String)
    (hget : q.Get = GetResult.item key q1) : q1.failures = q.failures := by
  unfold Queue.Get at hget
  cases hq : q.queue with
  | nil =>
    rw [hq] at hget
    by_cases hsd : q.shuttingDown = true <;> simp [hsd] at hget
  | cons item rest =>
    rw [hq] at hget
    simp only [GetResult.item.injEq] at hget
    rw [← hget.2]

/-- The retry counter is untouched by `Done`. -/
theorem Queue.failures_of_done (q : Queue) (key : String) :
    (q.Done key).failures = q.failures := by
  unfold Queue.Done
  split <;> rfl

/-- The retry counter of a key grows by one with `AddRateLimited`. -/
theorem Queue.numRequeues_addRateLimited (q : Queue) (key : String) :
    (q.AddRateLimited key).NumRequeues key = q.NumRequeues key + 1 := by
  unfold Queue.AddRateLimited Queue.NumRequeues
  by_cases hsd : q.shuttingDown = true <;> simp [hsd]

/-! ### C2: the retry ceiling -/

/-- A key added to a new queue is pending with retry counter 0. -/
theorem Queue.add_empty (key : String) : Queue.empty.Add key = Queue.retrying key 0 := by
  simp [Queue.empty, Queue.Add, Queue.retrying]

/-- When the back-off of the only waiting key has run, the key is pending again. -/
theorem Queue.elapse_backingOff (key : String) (n : Nat) :
    (Queue.backingOff key n).elapse = Queue.retrying key n := by
  simp [Queue.backingOff, Queue.elapse, Queue.Add, Queue.retrying]

/-- A failing item whose retry counter is at most `maxRetry` is re-enqueued with
`AddRateLimited`. -/
theorem processNextItem_retrying_below {σ : Type} (c : Client σ) (s : σ) (key : String)
    (n : Nat) (e : Err) (herr : (syncService c key s).err = some e) (hn : n ≤ maxRetry) :
    processNextItem c (Queue.retrying key n) s =
      some ⟨true, Queue.backingOff key (n + 1), (syncService c key s).state,
        [Event.queueGet key, Event.sync key (syncService c key s).calls (some e),
          Event.queueNumRequeues key, Event.queueAddRateLimited key, Event.queueDone key]⟩ := by
  simp only [processNextItem, Queue.retrying, Queue.Get, herr, handlerError, Queue.NumRequeues,
    if_true, hn, Queue.AddRateLimited, Queue.Done, Queue.backingOff]
  simp
  funext k
  by_cases hk : k = key <;> simp [hk]

/-- A failing item whose retry counter is above `maxRetry` is reported and forgotten. -/
theorem processNextItem_retrying_above {σ : Type} (c : Client σ) (s : σ) (key : String)
    (n : Nat) (e : Err) (herr : (syncService c key s).err = some e) (hn : maxRetry < n) :
    processNextItem c (Queue.retrying key n) s =
      some ⟨true, Queue.empty, (syncService c key s).state,
        [Event.queueGet key, Event.sync key (syncService c key s).calls (some e),
          Event.queueNumRequeues key, Event.handleError e, Event.queueForget key,
          Event.queueDone key]⟩ := by
  have hn2 : ¬ n ≤ maxRetry := Nat.not_le.2 hn
  simp only [processNextItem, Queue.retrying, Queue.Get, herr, handlerError, Queue.NumRequeues,
    if_true, hn2, Queue.Forget, Queue.Done, Queue.empty]
  simp
  funext k
  by_cases hk : k = key <;> simp [hk]

/-- On a queue with nothing pending or waiting the worker does nothing. -/
theorem worker_of_empty {σ : Type} (c : Client σ) (fuel : Nat) (s : σ) :
    (worker c fuel Queue.empty s).2.2 = [] := by
  cases fuel <;> rfl

/-- The retry loop for a key whose `syncService` always fails: from retry counter `n`,
with `n + d = maxRetry + 1`, the worker runs `syncService` for the key `d + 1` times,
calls `AddRateLimited` `d` times and `Forget` once. -/
theorem worker_failing_key_runs {σ : Type} (c : Client σ) (key : String)
    (hfail : ∀ s, (syncService c key s).err ≠ none) :
    ∀ (d n fuel : Nat) (q : Queue) (s : σ), n + d = maxRetry + 1 → d + 1 ≤ fuel →
      (if q.queue = [] then q.elapse else q) = Queue.retrying key n →
      ((worker c fuel q s).2.2.filter (Event.isSyncOf key)).length = d + 1 ∧
      ((worker c fuel q s).2.2.filter
        (fun e => e = Event.queueAddRateLimited key)).length = d ∧
      ((worker c fuel q s).2.2.filter (fun e => e = Event.queueForget key)).length = 1 := by
  intro d
  induction d with
  | zero =>
    intro n fuel q s hn hfuel hq
    obtain ⟨f, rfl⟩ : ∃ f, fuel = f + 1 := ⟨fuel - 1, by omega⟩
    cases herr : (syncService c key s).err with
    | none => exact absurd herr (hfail s)
    | some e =>
      have hn2 : maxRetry < n := by omega
      simp only [worker, hq, processNextItem_retrying_above c s key n e herr hn2, if_true,
        worker_of_empty]
      simp [Event.isSyncOf]
  | succ d ih =>
    intro n fuel q s hn hfuel hq
    obtain ⟨f, rfl⟩ : ∃ f, fuel = f + 1 := ⟨fuel - 1, by omega⟩
    cases herr : (syncService c key s).err with
    | none => exact absurd herr (hfail s)
    | some e =>
      have hn2 : n ≤ maxRetry := by omega
      have hrest := ih (n + 1) f (Queue.backingOff key (n + 1)) (syncService c key s).state
        (by omega) (by omega)
        (by rw [if_pos (by rfl), Queue.elapse_backingOff])
      simp only [worker, hq, processNextItem_retrying_below c s key n e herr hn2, if_true,
        List.filter_append, List.length_append, hrest]
      simp [Event.isSyncOf]
      omega

/-- For every client, every key whose `syncService` always fails, and every fuel that
lets the loop finish: starting from the key freshly added, the worker runs
`syncService` for it `maxRetry + 2` times, with `maxRetry + 1` calls of `AddRateLimited`
before the one `Forget`. -/
theorem worker_failing_key_fresh {σ : Type} (c : Client σ) (key : String) (fuel : Nat) (s : σ)
    (hfail : ∀ s, (syncService c key s).err ≠ none) (hfuel : maxRetry + 2 ≤ fuel) :
    ((worker c fuel (Queue.empty.Add key) s).2.2.filter (Event.isSyncOf key)).length =
      maxRetry + 2 ∧
    ((worker c fuel (Queue.empty.Add key) s).2.2.filter
      (fun e => e = Event.queueAddRateLimited key)).length = maxRetry + 1 ∧
    ((worker c fuel (Queue.empty.Add key) s).2.2.filter
      (fun e => e = Event.queueForget key)).length = 1 :=
  worker_failing_key_runs c key hfail (maxRetry + 1) 0 fuel (Queue.empty.Add key) s
    (by omega) hfuel (by rw [Queue.add_empty]; rfl)

/-- C2 at its failing input: with the key `ns/svc1` freshly added (retry counter 0) and a
`syncService` that fails on every attempt, the worker runs `syncService` for the key
12 times, which is `maxRetry + 2`, all of them failing: it calls `AddRateLimited` 11
times, and only the twelfth failure reaches `Forget`, after which nothing is pending or
waiting. -/
theorem worker_runs_failing_key_twelve_times :
    (∀ s, (syncService alwaysFailingClient "ns/svc1" s).err ≠ none) ∧
    (Queue.empty.Add "ns/svc1").NumRequeues "ns/svc1" = 0 ∧
    ((worker alwaysFailingClient 100 (Queue.empty.Add "ns/svc1") ()).2.2.filter
      (Event.isSyncOf "ns/svc1")).length = maxRetry + 2 ∧
    ((worker alwaysFailingClient 100 (Queue.empty.Add "ns/svc1") ()).2.2.filter
      (Event.isFailedSyncOf "ns/svc1")).length = 12 ∧
    ((worker alwaysFailingClient 100 (Queue.empty.Add "ns/svc1") ()).2.2.filter
      (fun e => e = Event.queueAddRateLimited "ns/svc1")).length = 11 ∧
    ((worker alwaysFailingClient 100 (Queue.empty.Add "ns/svc1") ()).2.2.filter
      (fun e => e = Event.queueForget "ns/svc1")).length = 1 ∧
    (worker alwaysFailingClient 100 (Queue.empty.Add "ns/svc1") ()).1.queue = [] ∧
    (worker alwaysFailingClient 100 (Queue.empty.Add "ns/svc1") ()).1.waiting = [] := by
  refine ⟨fun s => ?_, rfl, by decide, by decide, by decide, by decide, by decide, by decide⟩
  have herr : (syncService alwaysFailingClient "ns/svc1" s).err =
      some (Err.other "service cache unavailable") := rfl
  rw [herr]
  simp

/-! ### C3: the retry counter after a success -/

/-- C3, as stated, fails: the key `ns/svc1` fails once while the Service cache is down
(retry counter 1), is re-added after its back-off, and is then processed successfully;
`processNextItem` calls `Get`, `syncService` and `Done` only, no `Forget`, and
the retry counter of the key is still 1 afterwards, not 0. -/
theorem success_does_not_forget :
    ∃ r1 r2,
      processNextItem flappingClient (Queue.empty.Add "ns/svc1") true = some r1 ∧
      r1.queue.NumRequeues "ns/svc1" = 1 ∧
      processNextItem flappingClient r1.queue.elapse false = some r2 ∧
      (syncService flappingClient "ns/svc1" false).err = none ∧
      r2.events = [Event.queueGet "ns/svc1",
        Event.sync "ns/svc1" [Call.getService "ns" "svc1"] none,
        Event.queueDone "ns/svc1"] ∧
      r2.queue.NumRequeues "ns/svc1" = 1 :=
  ⟨_, _, rfl, rfl, rfl, rfl, rfl, rfl⟩

/-- C3, amended: for every key, whenever `syncService(key)` returns nil inside
`processNextItem`, the queue is called with `Get` and `Done` only (no `Forget`, no
`AddRateLimited`), and `NumRequeues` of every key is after the item what it was before
it: the retry counter is not reset by a success. -/
theorem processNextItem_success_keeps_retry_counter {σ : Type} (c : Client σ)
    (q q1 : Queue) (s : σ) (key : String) (hget : q.Get = GetResult.item key q1)
    (hok : (syncService c key s).err = none) :
    ∃ r, processNextItem c q s = some r ∧
      r.events = [Event.queueGet key, Event.sync key (syncService c key s).calls none,
        Event.queueDone key] ∧
      ∀ k, r.queue.NumRequeues k = q.NumRequeues k := by
  refine ⟨_, by unfold processNextItem; rw [hget], ?_, ?_⟩
  · simp [hok]
  · intro k
    simp only [hok, Queue.NumRequeues]
    rw [Queue.failures_of_done, Queue.failures_of_get q q1 key hget]

/-- The amended C3 at the key `ns/svc1` that has been retried once and now succeeds. -/
theorem processNextItem_success_keeps_retry_counter_witness :
    (syncService flappingClient "ns/svc1" false).err = none ∧
    ∃ r, processNextItem flappingClient (Queue.empty.AddRateLimited "ns/svc1").elapse false =
        some r ∧
      r.events = [Event.queueGet "ns/svc1",
        Event.sync "ns/svc1" (syncService flappingClient "ns/svc1" false).calls none,
        Event.queueDone "ns/svc1"] ∧
      ∀ k, r.queue.NumRequeues k =
        (Queue.empty.AddRateLimited "ns/svc1").elapse.NumRequeues k :=
  ⟨rfl, processNextItem_success_keeps_retry_counter flappingClient
    (Queue.empty.AddRateLimited "ns/svc1").elapse _ false "ns/svc1" rfl rfl⟩

/-! ### C4: a malformed key -/

/-- C4, as stated, fails: the key `a/b/c` is rejected by the key splitter, and processing
it calls `AddRateLimited` for it and takes its retry counter from 0 to 1; the key is
waiting for its retry afterwards. -/
theorem malformed_key_is_requeued :
    SplitMetaNamespaceKey "a/b/c" = Except.error (Err.unexpectedKeyFormat "a/b/c") ∧
    (Queue.empty.Add "a/b/c").NumRequeues "a/b/c" = 0 ∧
    ∃ r, processNextItem clusterClient (Queue.empty.Add "a/b/c") clusterWanted = some r ∧
      r.events = [Event.queueGet "a/b/c",
        Event.sync "a/b/c" [] (some (Err.unexpectedKeyFormat "a/b/c")),
        Event.queueNumRequeues "a/b/c", Event.queueAddRateLimited "a/b/c",
        Event.queueDone "a/b/c"] ∧
      r.queue.NumRequeues "a/b/c" = 1 ∧
      r.queue.waiting = ["a/b/c"] :=
  ⟨rfl, rfl, _, rfl, rfl, rfl, rfl⟩

/-- C4, amended: for every key that the key splitter rejects, processing the item performs
no lister lookup and no mutation (its `syncService` makes no call and the world is
unchanged), and the error takes the ordinary failure path: while the retry counter of
the key is below `maxRetry`, `handlerError` calls `AddRateLimited(key)`, and
`NumRequeues(key)` is one more than before. -/
theorem processNextItem_malformed_key {σ : Type} (c : Client σ) (q q1 : Queue) (s : σ)
    (key : String) (e : Err) (hget : q.Get = GetResult.item key q1)
    (hkey : SplitMetaNamespaceKey key = Except.error e)
    (hlt : q.NumRequeues key < maxRetry) :
    ∃ r, processNextItem c q s = some r ∧
      r.state = s ∧
      r.events = [Event.queueGet key, Event.sync key [] (some e),
        Event.queueNumRequeues key, Event.queueAddRateLimited key, Event.queueDone key] ∧
      r.queue.NumRequeues key = q.NumRequeues key + 1 := by
  have hsync : syncService c key s = ⟨s, [], some e⟩ := by
    unfold syncService
    rw [hkey]
  have hle : q1.NumRequeues key ≤ maxRetry := by
    unfold Queue.NumRequeues
    rw [Queue.failures_of_get q q1 key hget]
    exact Nat.le_of_lt hlt
  refine ⟨_, by unfold processNextItem; rw [hget], ?_, ?_, ?_⟩
  · simp [hsync]
  · simp [hsync, handlerError, hle]
  · simp only [hsync, handlerError, hle, if_true]
    have hdone := Queue.failures_of_done (q1.AddRateLimited key) key
    have hadd := Queue.numRequeues_addRateLimited q1 key
    unfold Queue.NumRequeues at hadd ⊢
    rw [hdone, hadd, Queue.failures_of_get q q1 key hget]

/-- The amended C4 at the freshly added key `a/b/c`. -/
theorem processNextItem_malformed_key_witness :
    ∃ r, processNextItem clusterClient (Queue.empty.Add "a/b/c") clusterWanted = some r ∧
      r.state = clusterWanted ∧
      r.events = [Event.queueGet "a/b/c",
        Event.sync "a/b/c" [] (some (Err.unexpectedKeyFormat "a/b/c")),
        Event.queueNumRequeues "a/b/c", Event.queueAddRateLimited "a/b/c",
        Event.queueDone "a/b/c"] ∧
      r.queue.NumRequeues "a/b/c" = (Queue.empty.Add "a/b/c").NumRequeues "a/b/c" + 1 :=
  processNextItem_malformed_key clusterClient (Queue.empty.Add "a/b/c") _ clusterWanted
    "a/b/c" (Err.unexpectedKeyFormat "a/b/c") rfl rfl (by decide)

/-! ### C5: the handler for a deleted Ingress -/

/-- The `GetControllerOf` result is an owner reference of the list with the controller flag
set, and there is one exactly when some reference of the list has the flag set. -/
theorem GetControllerOf_spec (refs : List OwnerReference) :
    (∀ ref, GetControllerOf refs = some ref → ref ∈ refs ∧ ref.Controller = some true) ∧
    ((∃ ref, GetControllerOf refs = some ref) ↔ ∃ ref ∈ refs, ref.Controller = some true) := by
  induction refs with
  | nil => simp [GetControllerOf]
  | cons r rest ih =>
    by_cases hr : r.Controller = some true
    · refine ⟨?_, ?_⟩
      · intro ref href
        simp only [GetControllerOf, hr, if_true, Option.some.injEq] at href
        subst href
        exact ⟨List.mem_cons_self _ _, hr⟩
      · simp only [GetControllerOf, hr, if_true]
        exact ⟨fun _ => ⟨r, List.mem_cons_self _ _, hr⟩, fun _ => ⟨r, rfl⟩⟩
    · refine ⟨?_, ?_⟩
      · intro ref href
        simp only [GetControllerOf, hr, if_false] at href
        exact ⟨List.mem_cons_of_mem _ (ih.1 ref href).1, (ih.1 ref href).2⟩
      · simp only [GetControllerOf, hr, if_false]
        rw [ih.2]
        constructor
        · rintro ⟨x, hx, hc⟩
          exact ⟨x, List.mem_cons_of_mem _ hx, hc⟩
        · rintro ⟨x, hx, hc⟩
          rcases List.mem_cons.1 hx with rfl | hx
          · exact absurd hc hr
          · exact ⟨x, hx, hc⟩

/-- C5, as stated, fails: the deleted Ingress `ns/web` has the controller owner reference
of kind `Service` named `svc1`, and the key `deleteIngress` adds is `ns/web`, the key of
the Ingress, not `ns/svc1`, the key of the owning Service. -/
theorem deleteIngress_adds_ingress_key :
    GetControllerOf renamedIngress.OwnerReferences =
      some (NewControllerRef svc1Annotated "v1" "Service") ∧
    (NewControllerRef svc1Annotated "v1" "Service").Kind = "Service" ∧
    renamedIngress.Namespace ++ "/" ++ (NewControllerRef svc1Annotated "v1" "Service").Name =
      "ns/svc1" ∧
    (deleteIngress Queue.empty renamedIngress).2 = [Event.queueAdd "ns/web"] ∧
    (deleteIngress Queue.empty renamedIngress).1.queue = ["ns/web"] ∧
    "ns/web" ≠ "ns/svc1" := by
  refine ⟨rfl, rfl, by decide, by decide, by decide, by decide⟩

/-- C5, amended: for every deleted Ingress, `deleteIngress` adds a key to the queue if and
only if the Ingress has a controller owner reference whose kind is `Service`; the key
added is then the Ingress's own namespace and name joined by `/`, which is the key of the
owning Service whenever the Ingress bears its owner's name; in every other case the queue
is left unchanged and nothing is called. -/
theorem deleteIngress_spec (q : Queue) (ingress : Ingress) :
    ((∃ ref, GetControllerOf ingress.OwnerReferences = some ref ∧ ref.Kind = "Service") →
      deleteIngress q ingress =
        (q.Add (ingress.Namespace ++ "/" ++ ingress.Name),
          [Event.queueAdd (ingress.Namespace ++ "/" ++ ingress.Name)])) ∧
    (¬ (∃ ref, GetControllerOf ingress.OwnerReferences = some ref ∧ ref.Kind = "Service") →
      deleteIngress q ingress = (q, [])) ∧
    (∀ ref, GetControllerOf ingress.OwnerReferences = some ref → ingress.Name = ref.Name →
      ingress.Namespace ++ "/" ++ ingress.Name = ingress.Namespace ++ "/" ++ ref.Name) := by
  refine ⟨?_, ?_, ?_⟩
  · rintro ⟨ref, href, hkind⟩
    simp [deleteIngress, href, hkind]
  · intro hno
    unfold deleteIngress
    cases href : GetControllerOf ingress.OwnerReferences with
    | none => rfl
    | some ref =>
      have hkind : ref.Kind ≠ "Service" := fun hk => hno ⟨ref, href, hk⟩
      simp [hkind]
  · intro ref _ hname
    rw [hname]

end ControllerDemo
